import Mathlib

/-!
# phonelab_backend: the staged-work ingestion pipeline of `device_handlers.go`

A shallow embedding of `ProcessStagedWork`, `OpenFileAndReader`, `UpdateOutFile`
and `UpdateMetadata`.  The Go code works on the file system through `os`,
`compress/gzip`, `gopkg.in/yaml.v2` and `github.com/gurupras/gocommons`; here the
file system is an explicit `World` value that every operation takes and returns,
and the libraries are the fields of an `Env` record, so that every theorem holds
for whatever those libraries compute.
-/

set_option autoImplicit false
set_option maxRecDepth 100000

namespace PhonelabBackend

/-! ## Data model -/

/-- The content of a file, byte by byte. -/
abbrev Bytes := List UInt8

/-- Modelled from the spec: the `Work` struct is declared in a file of the
repository that is not part of the sources at hand; these are the fields
`device_handlers.go` reads from it (spec section 3, WorkItem). -/
structure Work where
  StagingFileName : String
  OutDir : String
  DeviceId : String
  PackageName : String
  Version : String
  UploadTimestamp : Int
deriving DecidableEq, Repr

/-- The `gocommons.File` handle; the code only reads its `Path`. -/
structure File where
  Path : String
deriving DecidableEq, Repr

/-- The `DeviceWork` struct (lines 23-29); the embedded `*Work` is the field `Work`,
a nil `OutFile` is `none`. -/
structure DeviceWork where
  Work : Work
  BootId : String
  OutFile : Option File
  StartTimestamp : Int
  EndTimestamp : Int
deriving DecidableEq, Repr

/-- Modelled from the spec: the `OutMetadata` struct is declared outside the
sources at hand; the device identifier and the five parallel sequences are the
fields `UpdateMetadata` assigns (spec section 3, DeviceMetadataRecord).  The zero
value `&OutMetadata{}` is the record of empty fields. -/
structure OutMetadata where
  DeviceId : String := ""
  Versions : List String := []
  PackageNames : List String := []
  UploadTimestamps : List Int := []
  StartTimestamps : List Int := []
  EndTimestamps : List Int := []
deriving DecidableEq, Repr

/-- Modelled from the spec: the record `ParseLogline` returns for a line it
accepts is declared outside the sources at hand; it carries a boot identifier and
an event time (spec section 6, log-line parser). -/
structure Logline where
  BootId : String
  Datetime : Int
deriving DecidableEq, Repr

/-- What a call of a processing step, or of a library routine, comes back with:
a nil error, a non-nil error, or a panic that unwinds the caller. -/
inductive StepResult where
  | ok
  | error (err : String)
  | panic (msg : String)
deriving DecidableEq, Repr

/-- The state outside the program: regular files by path, directories, and the
lines printed so far on standard output and standard error. -/
structure World where
  files : List (String × Bytes)
  dirs : List String
  stdout : List String
  stderr : List String
deriving DecidableEq, Repr

/-- The type `ProcessingFunction` (line 31): a step mutates the `DeviceWork` it is
handed and the world, and returns an error or nil. -/
abbrev ProcessingFunction := DeviceWork → World → StepResult × DeviceWork × World

/-- The flag combinations the code opens files with. -/
inductive OpenMode where
  | rdonly
  | wrAppend
  | wrCreateAppend
  | rdwrCreate
deriving DecidableEq, Repr

/-- Whether the flags include `os.O_CREATE`. -/
def OpenMode.create : OpenMode → Bool
  | .wrCreateAppend => true
  | .rdwrCreate => true
  | _ => false

/-- A `gzip.Reader` over a file: the bytes it yields when drained, and the error
that ends the stream when it is not a clean end of file. -/
structure GzStream where
  data : Bytes
  readErr : Option String
deriving DecidableEq, Repr

/-- The collaborators of `device_handlers.go` that live outside it. -/
structure Env where
  /-- The repository function `ParseLogline`: `none` is the nil result. -/
  ParseLogline : String → Option Logline
  /-- The library function `filepath.Join` on two elements. -/
  Join : String → String → String
  /-- A failure of `os.Stat` other than absence: what `gocommons.Exists` then reports. -/
  statFault : String → Option (Bool × String)
  /-- A failure of `os.OpenFile` for a reason outside the model. -/
  openFault : String → OpenMode → Option String
  /-- A failure of `gocommons.Makedirs`. -/
  mkdirFault : String → Option String
  /-- The scanner `File.Reader` gives, for a buffer size, on a file opened with
  `GZ_UNKNOWN`: the lines `Scan`/`Text` yield before `Scan` returns false, or the
  error of obtaining the reader. -/
  Reader : Nat → Bytes → Except String (List String)
  /-- The library function `gzip.NewReader` on a file with this content. -/
  gzipNewReader : Bytes → Except String GzStream
  /-- The bytes a gzip writer puts on the file for this payload once flushed and
  closed. -/
  gzipMember : Bytes → Bytes
  /-- A failure of `File.Writer` on the file at this path. -/
  WriterFault : String → Option String
  /-- What `io.Copy` does with the `Writer` value that came with an error. -/
  failedCopy : GzStream → World → StepResult × World
  /-- What `Flush` and `Close` do on the `Writer` value that came with an error:
  a panic message if they panic. -/
  failedFlushClose : World → Option String × World
  /-- A failure of reading the whole metadata file. -/
  readFault : String → Option String
  /-- A failure of `Writer.Write`, with the number of bytes that reached the file. -/
  writeFault : String → Option (String × Nat)
  /-- The library function `yaml.Marshal` on an `OutMetadata`. -/
  Marshal : OutMetadata → Except String Bytes
  /-- The struct `yaml.Unmarshal` leaves behind when run on a zero `OutMetadata`
  (the code drops its error). -/
  Unmarshal : Bytes → OutMetadata

/-! ## The file system -/

/-- The content of the regular file at a path, if there is one. -/
def World.read (σ : World) (p : String) : Option Bytes :=
  σ.files.lookup p

/-- Replace, or add, the binding of a path. -/
def setFile : List (String × Bytes) → String → Bytes → List (String × Bytes)
  | [], p, c => [(p, c)]
  | (q, d) :: rest, p, c => if q = p then (p, c) :: rest else (q, d) :: setFile rest p c

/-- The world in which the file at `p` holds `c`. -/
def World.write (σ : World) (p : String) (c : Bytes) : World :=
  { σ with files := setFile σ.files p c }

/-- One `fmt.Fprintln(os.Stderr, ...)`. -/
def World.logErr (σ : World) (line : String) : World :=
  { σ with stderr := σ.stderr ++ [line] }

/-- One `fmt.Println(...)`. -/
def World.logOut (σ : World) (line : String) : World :=
  { σ with stdout := σ.stdout ++ [line] }

/-- The function `gocommons.Exists`: whether the path is there, and the error of
the check. -/
def gocommons_Exists (env : Env) (σ : World) (p : String) : Bool × Option String :=
  match env.statFault p with
  | some (b, e) => (b, some e)
  | none => ((σ.read p).isSome || σ.dirs.contains p, none)

/-- The function `gocommons.Makedirs`. -/
def gocommons_Makedirs (env : Env) (σ : World) (p : String) : Except String World :=
  match env.mkdirFault p with
  | some e => .error e
  | none => .ok { σ with dirs := p :: σ.dirs }

/-- The function `gocommons.Open` (an `os.OpenFile`): the content of the file
that was opened and the world afterwards.  A missing file is created empty under
`O_CREATE` and is an error otherwise; no flag combination used truncates. -/
def gocommons_Open (env : Env) (σ : World) (p : String) (mode : OpenMode) :
    Except String (Bytes × World) :=
  match env.openFault p mode with
  | some e => .error e
  | none =>
    match σ.read p with
    | some c => .ok (c, σ)
    | none => if mode.create then .ok ([], σ.write p []) else .error "no such file or directory"

/-- Writing `b` at offset 0 of a file holding `old`, without truncating. -/
def overwrite (old b : Bytes) : Bytes :=
  b ++ old.drop b.length

/-! ## The operations of `device_handlers.go` -/

/-- The function `OpenFileAndReader` (lines 100-116): the lines the scanner over
the file yields, or the error, which is also printed. -/
def OpenFileAndReader (env : Env) (σ : World) (fpath : String) :
    Except String (List String) × World :=
  match gocommons_Open env σ fpath .rdonly with
  | .error e => (.error e, σ.logErr ("Failed to open file " ++ e))
  | .ok (content, σ1) =>
    match env.Reader 1048576 content with
    | .error e => (.error e, σ1.logErr ("Failed to get reader to file " ++ e))
    | .ok lines => (.ok lines, σ1)

/-- The scan loop of `UpdateOutFile` (lines 134-142): the first line that
`ParseLogline` accepts sets `BootId` and ends the loop. -/
def scanBootId (env : Env) : List String → DeviceWork → DeviceWork
  | [], work => work
  | line :: rest, work =>
    match env.ParseLogline line with
    | some logline => { work with BootId := logline.BootId }
    | none => scanBootId env rest work

/-- Lines 145-150 of `UpdateOutFile`: the output directory is created when
`Exists` does not report it, or reports an error. -/
def ensureOutDir (env : Env) (σ : World) (dir : String) : Except String World :=
  let ex := gocommons_Exists env σ dir
  if !ex.1 || ex.2.isSome then gocommons_Makedirs env σ dir else .ok σ

/-- The function `UpdateOutFile` (lines 118-160). -/
def UpdateOutFile (env : Env) : ProcessingFunction := fun work σ =>
  match OpenFileAndReader env σ work.Work.StagingFileName with
  | (.error e, σ1) => (.error e, work, σ1)
  | (.ok lines, σ1) =>
    let work1 := scanBootId env lines work
    match ensureOutDir env σ1 work1.Work.OutDir with
    | .error e => (.error e, work1, σ1.logErr ("Failed to create output directory " ++ e))
    | .ok σ2 =>
      let outfile := env.Join work1.Work.OutDir (work1.BootId ++ ".gz")
      let σ3 := σ2.logOut ("outfile: " ++ outfile)
      match gocommons_Open env σ3 outfile .wrCreateAppend with
      | .error e =>
        (.error e, { work1 with OutFile := none }, σ3.logErr ("Failed to open output file " ++ e))
      | .ok (_, σ4) => (.ok, { work1 with OutFile := some ⟨outfile⟩ }, σ4)

/-- Lines 193-198 of `UpdateMetadata`: the record that is written back. -/
def appendEvent (existingMetadata : OutMetadata) (work : DeviceWork) : OutMetadata :=
  { DeviceId := work.Work.DeviceId
    Versions := existingMetadata.Versions ++ [work.Work.Version]
    PackageNames := existingMetadata.PackageNames ++ [work.Work.PackageName]
    UploadTimestamps := existingMetadata.UploadTimestamps ++ [work.Work.UploadTimestamp]
    StartTimestamps := existingMetadata.StartTimestamps ++ [work.StartTimestamp]
    EndTimestamps := existingMetadata.EndTimestamps ++ [work.EndTimestamp] }

/-- Lines 193-217 of `UpdateMetadata`: build the record, seek to offset 0, obtain
the writer, serialise, write.  `content` is what the open file holds. -/
def writeMetadata (env : Env) (work : DeviceWork) (σ : World) (metadataPath : String)
    (content : Bytes) (existingMetadata : OutMetadata) : StepResult × DeviceWork × World :=
  let outMetadata := appendEvent existingMetadata work
  match env.WriterFault metadataPath with
  | some e => (.error e, work, σ.logErr ("Failed to get writer for metadata file " ++ e))
  | none =>
    match env.Marshal outMetadata with
    | .error e => (.error e, work, σ.logErr ("Failed to convert struct to yaml-bytes " ++ e))
    | .ok bytes =>
      match env.writeFault metadataPath with
      | some (e, n) =>
        (.error e, work,
          (σ.write metadataPath (overwrite content (bytes.take n))).logErr
            ("Failed to write metadata to file " ++ e))
      | none => (.ok, work, σ.write metadataPath (overwrite content bytes))

/-- The message of the panic at line 189; it formats `outMetadata.DeviceId`,
which is still empty there. -/
def mismatchMessage (work : DeviceWork) : String :=
  "DeviceIDs don\x27t match! YAML() != work(" ++ work.Work.DeviceId ++ ")"

/-- The function `UpdateMetadata` (lines 162-218). -/
def UpdateMetadata (env : Env) : ProcessingFunction := fun work σ =>
  let metadataPath := env.Join work.Work.OutDir (work.BootId ++ ".yaml")
  let ex := (gocommons_Exists env σ metadataPath).1
  match gocommons_Open env σ metadataPath .rdwrCreate with
  | .error e => (.error e, work, σ.logErr ("Failed to update metadata " ++ e))
  | .ok (content, σ1) =>
    if ex then
      match env.readFault metadataPath with
      | some e =>
        (.error e, work, σ1.logErr ("Failed to read metadata from existing file " ++ e))
      | none =>
        let existingMetadata := env.Unmarshal content
        if existingMetadata.DeviceId ≠ work.Work.DeviceId then
          (.panic (mismatchMessage work), work, σ1)
        else writeMetadata env work σ1 metadataPath content existingMetadata
    else writeMetadata env work σ1 metadataPath content {}

/-- A record of what `ProcessStagedWork` executed, kept beside the state (it is
not part of the Go program): the pre-processing step at an index, the `io.Copy`
of line 84, the post-processing step at an index. -/
inductive Event where
  | pre (i : Nat)
  | copy
  | post (i : Nat)
deriving DecidableEq, Repr

/-- How a loop over processing steps ends. -/
inductive LoopExit where
  | finished
  | failed (err : String)
  | panicked (msg : String)
deriving DecidableEq, Repr

/-- How `ProcessStagedWork` ends: one of its `return`s after a failure, the end
of the function, or a panic. -/
inductive Status where
  | abortedPre
  | abortedTransfer
  | done
  | panicked (msg : String)
deriving DecidableEq, Repr

/-- The result of one `ProcessStagedWork`. -/
structure Outcome where
  status : Status
  work : DeviceWork
  world : World
  trace : List Event
deriving DecidableEq, Repr

/-- The loop of lines 49-55, from the step at index `i` on. -/
def runPreProcessing : List ProcessingFunction → Nat → DeviceWork → World → List Event →
    LoopExit × DeviceWork × World × List Event
  | [], _, dw, σ, tr => (.finished, dw, σ, tr)
  | process :: rest, i, dw, σ, tr =>
    match process dw σ with
    | (.ok, dw1, σ1) => runPreProcessing rest (i + 1) dw1 σ1 (tr ++ [.pre i])
    | (.error e, dw1, σ1) =>
      (.failed e, dw1, σ1.logErr ("Failed to run pre-processing step " ++ e), tr ++ [.pre i])
    | (.panic m, dw1, σ1) => (.panicked m, dw1, σ1, tr ++ [.pre i])

/-- The loop of lines 95-97, from the step at index `i` on: the value a step
returns is dropped. -/
def runPostProcessing : List ProcessingFunction → Nat → DeviceWork → World → List Event →
    LoopExit × DeviceWork × World × List Event
  | [], _, dw, σ, tr => (.finished, dw, σ, tr)
  | process :: rest, i, dw, σ, tr =>
    match process dw σ with
    | (.panic m, dw1, σ1) => (.panicked m, dw1, σ1, tr ++ [.post i])
    | (_, dw1, σ1) => runPostProcessing rest (i + 1) dw1 σ1 (tr ++ [.post i])

/-- Lines 83-89: the writer of the archive is asked for; `io.Copy` runs in the
branch `err != nil`; then `Flush` and `Close`.  On a writer obtained without
error nothing was written, so the gzip writer puts the member of the empty
payload at the end of the archive (the file is open with `O_APPEND`).  A panic
message comes back if one of the calls panics. -/
def writerPhase (env : Env) (compressedReader : GzStream) (path : String) (archive : Bytes)
    (σ : World) (tr : List Event) : Option String × World × List Event :=
  match env.WriterFault path with
  | some _ =>
    match env.failedCopy compressedReader σ with
    | (.panic m, σ1) => (some m, σ1, tr ++ [.copy])
    | (.error e, σ1) =>
      let r := env.failedFlushClose (σ1.logErr ("Failed to copy from staging to out " ++ e))
      (r.1, r.2, tr ++ [.copy])
    | (.ok, σ1) =>
      let r := env.failedFlushClose σ1
      (r.1, r.2, tr ++ [.copy])
  | none => (none, σ.write path (archive ++ env.gzipMember []), tr)

/-- The `DeviceWork` of lines 44-46: the work item, every other field zero. -/
def newDeviceWork (work : Work) : DeviceWork :=
  { Work := work, BootId := "", OutFile := none, StartTimestamp := 0, EndTimestamp := 0 }

/-- Lines 40-92 of `ProcessStagedWork`: everything before the post-processing
loop.  The result is either the outcome of an early exit, or the state in which
the post-processing loop starts.  The deferred `outFile.Close()` of line 81 closes
a handle and changes no file content, so it leaves the world as it is. -/
def beforePostProcessing (env : Env) (PreProcessing : List ProcessingFunction) (work : Work)
    (σ : World) : Except Outcome (DeviceWork × World × List Event) :=
  match runPreProcessing PreProcessing 0 (newDeviceWork work) σ [] with
  | (.failed _, dw, σ1, tr) => .error ⟨.abortedPre, dw, σ1, tr⟩
  | (.panicked m, dw, σ1, tr) => .error ⟨.panicked m, dw, σ1, tr⟩
  | (.finished, dw, σ1, tr) =>
    match gocommons_Open env σ1 work.StagingFileName .rdonly with
    | .error e =>
      .error ⟨.abortedTransfer, dw, σ1.logErr ("Failed to open work.StagingFileName " ++ e), tr⟩
    | .ok (staged, σ2) =>
      match env.gzipNewReader staged with
      | .error e =>
        .error ⟨.abortedTransfer, dw,
          σ2.logErr ("Failed to get gzip.Reader to staged file " ++ e), tr⟩
      | .ok compressedReader =>
        match dw.OutFile with
        | none => .error ⟨.panicked "invalid memory address or nil pointer dereference", dw, σ2, tr⟩
        | some out =>
          match gocommons_Open env σ2 out.Path .wrAppend with
          | .error e =>
            .error ⟨.abortedTransfer, dw,
              σ2.logErr ("Failed to open file for writing data " ++ e), tr⟩
          | .ok (archive, σ3) =>
            match writerPhase env compressedReader out.Path archive σ3 tr with
            | (some m, σ4, tr4) => .error ⟨.panicked m, dw, σ4, tr4⟩
            | (none, σ4, tr4) => .ok (dw, σ4, tr4)

/-- The function `ProcessStagedWork` (lines 39-98), with the two global step
lists as arguments. -/
def ProcessStagedWork (env : Env) (PreProcessing PostProcessing : List ProcessingFunction)
    (work : Work) (σ : World) : Outcome :=
  match beforePostProcessing env PreProcessing work σ with
  | .error o => o
  | .ok (dw, σ1, tr) =>
    match runPostProcessing PostProcessing 0 dw σ1 tr with
    | (.panicked m, dw2, σ2, tr2) => ⟨.panicked m, dw2, σ2, tr2⟩
    | (_, dw2, σ2, tr2) => ⟨.done, dw2, σ2, tr2⟩

/-- The step lists `InitializeDeviceProcessingSteps` registers (lines 33-37). -/
def defaultPreProcessing (env : Env) : List ProcessingFunction := [UpdateOutFile env]

/-- The post-processing list `InitializeDeviceProcessingSteps` registers. -/
def defaultPostProcessing (env : Env) : List ProcessingFunction := [UpdateMetadata env]

/-! ## Vocabulary of the statements -/

/-- The archive as a reader sees it: the decompressed content, when the file is a
gzip stream that drains without error. -/
def decompress (env : Env) (file : Bytes) : Option Bytes :=
  match env.gzipNewReader file with
  | .ok s => if s.readErr = none then some s.data else none
  | .error _ => none

/-- The state after running every step of a list in order, whatever each one
returns. -/
def applySteps : List ProcessingFunction → DeviceWork × World → DeviceWork × World
  | [], s => s
  | process :: rest, s => applySteps rest (process s.1 s.2).2

/-- Every step of the list, run in its turn, returns nil. -/
def stepsSucceed : List ProcessingFunction → DeviceWork → World → Bool
  | [], _, _ => true
  | process :: rest, dw, σ =>
    match process dw σ with
    | (.ok, dw1, σ1) => stepsSucceed rest dw1 σ1
    | _ => false

/-- Every step of the list, run in its turn, returns (nil or an error) rather
than panics. -/
def stepsReturn : List ProcessingFunction → DeviceWork → World → Bool
  | [], _, _ => true
  | process :: rest, dw, σ =>
    match process dw σ with
    | (.panic _, _, _) => false
    | (_, dw1, σ1) => stepsReturn rest dw1 σ1

/-- A sequence is another one with one element put at its end, the earlier
elements staying where they were. -/
def ExtendsBy {α : Type} (old new : List α) (x : α) : Prop :=
  new = old ++ [x] ∧ new.length = old.length + 1 ∧ ∀ i, i < old.length → new[i]? = old[i]?

/-- The record `UpdateMetadata` starts from: what `yaml.Unmarshal` reads from the
file when `Exists` reports it, the zero record otherwise. -/
def existingRecord (env : Env) (σ : World) (metadataPath : String) : OutMetadata :=
  if (gocommons_Exists env σ metadataPath).1 then env.Unmarshal ((σ.read metadataPath).getD [])
  else {}

/-- Successive calls of `UpdateMetadata`, each returning nil: the world after the
last one. -/
def runUpdates (env : Env) : List DeviceWork → World → Option World
  | [], σ => some σ
  | work :: rest, σ =>
    match UpdateMetadata env work σ with
    | (.ok, _, σ1) => runUpdates env rest σ1
    | _ => none

/-- The record a list of ingestion events builds up from the zero record. -/
def eventsRecord (ws : List DeviceWork) : OutMetadata :=
  ws.foldl appendEvent {}

/-- The serialisation of a record reads back as the record. -/
def roundTrips (env : Env) (m : OutMetadata) : Bool :=
  match env.Marshal m with
  | .ok b => decide (env.Unmarshal b = m)
  | .error _ => true

/-- The serialisation of the second record is at least as long as that of the
first. -/
def noShorter (env : Env) (m m' : OutMetadata) : Bool :=
  match env.Marshal m, env.Marshal m' with
  | .ok b, .ok b' => decide (b.length ≤ b'.length)
  | _, _ => true

/-! ## A concrete environment

A small stand-in for the libraries, on which the operations can be evaluated: a
framing codec in place of gzip (a member is the byte `0x1f`, the payload, the
byte `0`), a line-oriented text in place of YAML, `boot=<id> ...` log lines. -/

/-- The bytes of an ASCII text. -/
def ascii (s : String) : Bytes :=
  s.toList.map (fun c => UInt8.ofNat c.toNat)

/-- One member of the stand-in codec. -/
def demoMember (payload : Bytes) : Bytes :=
  (0x1f : UInt8) :: payload ++ [0]

/-- Draining a stream of members: the flag tells whether the position is inside
a member. -/
def demoDrain : Bool → Bytes → Bytes → GzStream
  | false, [], acc => ⟨acc, none⟩
  | true, [], acc => ⟨acc, some "unexpected EOF"⟩
  | false, b :: rest, acc =>
    if b = 0x1f then demoDrain true rest acc else ⟨acc, some "gzip: invalid header"⟩
  | true, b :: rest, acc =>
    if b = 0 then demoDrain false rest acc else demoDrain true rest (acc ++ [b])

/-- The stand-in for `gzip.NewReader`: the first header is read at once. -/
def demoNewReader (file : Bytes) : Except String GzStream :=
  match file with
  | [] => .error "EOF"
  | b :: _ => if b = 0x1f then .ok (demoDrain false file []) else .error "gzip: invalid header"

/-- The lines of a text: splitting at the byte 10, whatever the length of a line. -/
def demoLines : Bytes → List Char → List String
  | [], [] => []
  | [], c :: cur => [String.mk (c :: cur)]
  | b :: rest, cur =>
    if b = 10 then String.mk cur :: demoLines rest []
    else demoLines rest (cur ++ [Char.ofNat b.toNat])

/-- The lines a scanner with a buffer of `max` bytes yields: a line that fills
the buffer before its end is reached makes `Scan` return false, and the scan ends
there without that line. -/
def demoScan (max : Nat) : Bytes → List Char → List String
  | [], [] => []
  | [], c :: cur => [String.mk (c :: cur)]
  | b :: rest, cur =>
    if b = 10 then String.mk cur :: demoScan max rest []
    else if max ≤ cur.length + 1 then []
    else demoScan max rest (cur ++ [Char.ofNat b.toNat])

/-- The stand-in scanner: it scans the decompressed content of a compressed file,
the content itself otherwise. -/
def demoReader (max : Nat) (file : Bytes) : Except String (List String) :=
  match demoNewReader file with
  | .ok s => .ok (demoScan max s.data [])
  | .error _ => .ok (demoScan max file [])

/-- The stand-in log-line parser: a line `boot=<id> ...` carries the boot
identifier `<id>`. -/
def demoParseLogline (line : String) : Option Logline :=
  if "boot=".toList.isPrefixOf line.toList then
    some ⟨String.mk ((line.toList.drop 5).takeWhile (fun c => c ≠ ' ')), 0⟩
  else none

/-- One sequence of the stand-in serialisation. -/
def demoSeq (name : String) (items : List String) : String :=
  match items with
  | [] => name ++ ": []\n"
  | _ => name ++ ":\n" ++ String.join (items.map (fun x => "- " ++ x ++ "\n"))

/-- The text of a record in the stand-in serialisation. -/
def demoText (m : OutMetadata) : Bytes :=
  (ascii ("deviceid: " ++ m.DeviceId ++ "\n"
    ++ demoSeq "versions" (m.Versions.map (fun v => "\"" ++ v ++ "\""))
    ++ demoSeq "packagenames" m.PackageNames
    ++ demoSeq "uploadtimestamps" (m.UploadTimestamps.map toString)
    ++ demoSeq "starttimestamps" (m.StartTimestamps.map toString)
    ++ demoSeq "endtimestamps" (m.EndTimestamps.map toString)))

/-- The stand-in for `yaml.Marshal`. -/
def demoMarshal (m : OutMetadata) : Except String Bytes :=
  .ok (demoText m)

/-- Dropping the comment lines (those that start with `#`) of a text. -/
def dropComments : Bytes → Bool → Bool → Bytes
  | [], _, _ => []
  | b :: rest, lineStart, inComment =>
    if b = 10 then (if inComment then [] else [b]) ++ dropComments rest true false
    else if inComment then dropComments rest false true
    else if lineStart && b = 35 then dropComments rest false true
    else b :: dropComments rest false false

/-- The work item of chunk A: device `D1`, version `1.0`. -/
def workA : Work :=
  { StagingFileName := "staging/a.gz", OutDir := "out", DeviceId := "D1",
    PackageName := "edu.buffalo.cse.phonelab", Version := "1.0", UploadTimestamp := 100 }

/-- The work item of chunk B: device `D1`, version `1.1`. -/
def workB : Work :=
  { workA with StagingFileName := "staging/b.gz", Version := "1.1", UploadTimestamp := 200 }

/-- The work item of chunk C: device `D2` claiming the same boot session. -/
def workC : Work :=
  { workA with StagingFileName := "staging/c.gz", DeviceId := "D2", UploadTimestamp := 300 }

/-- A work item whose chunk has no line `boot=...`. -/
def workJunk : Work :=
  { workA with StagingFileName := "staging/junk.gz", UploadTimestamp := 400 }

/-- The `DeviceWork` a work item is once its boot session `X` is resolved. -/
def resolved (work : Work) : DeviceWork :=
  { newDeviceWork work with BootId := "X", OutFile := some ⟨"out/X.gz"⟩ }

/-- The metadata record after chunk A. -/
def recordA : OutMetadata := eventsRecord [resolved workA]

/-- The metadata record after chunks A and B. -/
def recordAB : OutMetadata := eventsRecord [resolved workA, resolved workB]

/-- The stand-in for `yaml.Unmarshal`: comment lines are skipped, and the text is
read back as the record of the scenario it is the serialisation of (the zero
record when it is none of them). -/
def demoUnmarshal (b : Bytes) : OutMetadata :=
  match [recordA, recordAB].find? (fun m => decide (demoText m = dropComments b true false)) with
  | some m => m
  | none => {}

/-- The stand-in environment, without faults. -/
def demoEnv : Env :=
  { ParseLogline := demoParseLogline
    Join := fun dir name => dir ++ "/" ++ name
    statFault := fun _ => none
    openFault := fun _ _ => none
    mkdirFault := fun _ => none
    Reader := demoReader
    gzipNewReader := demoNewReader
    gzipMember := demoMember
    WriterFault := fun _ => none
    failedCopy := fun s σ => (.error (s.readErr.getD "short write"), σ)
    failedFlushClose := fun σ => (none, σ)
    readFault := fun _ => none
    writeFault := fun _ => none
    Marshal := demoMarshal
    Unmarshal := demoUnmarshal }

/-- The stand-in environment in which no writer can be obtained on an archive. -/
def faultyWriterEnv : Env :=
  { demoEnv with
    WriterFault := fun p => if p = "out/X.gz" then some "writer unavailable" else none }

/-- The staging area: chunks A, B and C of boot session `X`, and a chunk without
a parseable line. -/
def stagedWorld : World :=
  { files :=
      [("staging/a.gz", demoMember (ascii "boot=X hello\n")),
       ("staging/b.gz", demoMember (ascii "boot=X world\n")),
       ("staging/c.gz", demoMember (ascii "boot=X again\n")),
       ("staging/junk.gz", demoMember (ascii "hello\nworld\n"))]
    dirs := ["staging"]
    stdout := []
    stderr := [] }

/-- A line of two MiB of the letter `x`, twice the buffer the scanner is given. -/
def longLine : Bytes := List.replicate 2097152 120

/-- A chunk whose first line is the long one and whose second line is a log line
of boot session `X`. -/
def longChunk : Bytes := longLine ++ ascii "\nboot=X hello\n"

/-- The work item of the chunk with the long line. -/
def workLong : Work :=
  { workA with StagingFileName := "staging/long.gz" }

/-- The staging area holding the chunk with the long line. -/
def longWorld : World :=
  { files := [("staging/long.gz", demoMember longChunk)]
    dirs := ["staging"]
    stdout := []
    stderr := [] }

/-- A work item that already carries the boot identifier `Z`, on the chunk
without a parseable line. -/
def workZ : DeviceWork :=
  { newDeviceWork workJunk with BootId := "Z" }

/-- A step that returns an error and touches nothing. -/
def failingStep : ProcessingFunction :=
  fun dw σ => (.error "step failed", dw, σ)

/-- A step that returns nil and leaves a line on standard output. -/
def markStep : ProcessingFunction :=
  fun dw σ => (.ok, dw, σ.logOut "step ran")

/-- The world after chunk A was processed by the default steps. -/
def worldAfterA : World :=
  (ProcessStagedWork demoEnv (defaultPreProcessing demoEnv) (defaultPostProcessing demoEnv)
    workA stagedWorld).world

/-- The world in which the post-processing of chunk A starts: the archive of boot
session `X` was created and holds the member the unused writer left. -/
def transferredA : World :=
  { files := stagedWorld.files ++ [("out/X.gz", demoMember [])]
    dirs := ["out", "staging"]
    stdout := ["outfile: out/X.gz"]
    stderr := [] }

/-- A world in which the archive of boot session `X` holds chunk A and the
metadata file holds its record. -/
def archivedA : World :=
  { files := stagedWorld.files ++
      [("out/X.gz", demoMember (ascii "boot=X hello\n")), ("out/X.yaml", demoText recordA)]
    dirs := ["out", "staging"]
    stdout := []
    stderr := [] }

/-- The record of chunk A as a metadata file with a comment line in front. -/
def annotatedA : Bytes :=
  ascii "# boot session X, device D1: kept by hand until the ingestion service took over\n"
    ++ demoText recordA

/-- A world in which the metadata file of boot session `X` is the annotated one. -/
def annotatedWorld : World :=
  { transferredA with files := transferredA.files ++ [("out/X.yaml", annotatedA)] }

/-! ## Lemmas on the file system -/

theorem lookup_setFile_same (fs : List (String × Bytes)) (p : String) (c : Bytes) :
    (setFile fs p c).lookup p = some c := by
  induction fs with
  | nil => simp [setFile, List.lookup]
  | cons hd tl ih =>
    obtain ⟨q, d⟩ := hd
    by_cases h : q = p
    · simp [setFile, h, List.lookup]
    · have h2 : (p == q) = false := by
        simp only [beq_eq_false_iff_ne, ne_eq]
        exact fun e => h e.symm
      simp [setFile, h, List.lookup, h2, ih]

theorem lookup_setFile_other (fs : List (String × Bytes)) (p q : String) (c : Bytes)
    (hne : q ≠ p) : (setFile fs p c).lookup q = fs.lookup q := by
  induction fs with
  | nil =>
    have h2 : (q == p) = false := by simpa using hne
    simp [setFile, List.lookup, h2]
  | cons hd tl ih =>
    obtain ⟨r, d⟩ := hd
    by_cases h : r = p
    · subst h
      have h2 : (q == r) = false := by simpa using hne
      simp [setFile, List.lookup, h2]
    · by_cases h3 : q = r
      · subst h3
        simp [setFile, h, List.lookup]
      · have h4 : (q == r) = false := by simpa using h3
        simp [setFile, h, List.lookup, h4, ih]

theorem read_write_same (σ : World) (p : String) (c : Bytes) :
    (σ.write p c).read p = some c := by
  simp [World.read, World.write, lookup_setFile_same]

theorem read_write_other (σ : World) (p q : String) (c : Bytes) (hne : q ≠ p) :
    (σ.write p c).read q = σ.read q := by
  simp [World.read, World.write, lookup_setFile_other _ _ _ _ hne]

theorem overwrite_nil (b : Bytes) : overwrite [] b = b := by
  simp [overwrite]

theorem overwrite_of_le (old b : Bytes) (h : old.length ≤ b.length) : overwrite old b = b := by
  simp [overwrite, List.drop_eq_nil_of_le h]

theorem overwrite_length_of_lt (old b : Bytes) (h : b.length < old.length) :
    (overwrite old b).length = old.length := by
  simp [overwrite]
  omega

/-! ## Lemmas on the two loops -/

theorem runPreProcessing_append (p1 p2 : List ProcessingFunction) :
    ∀ (i : Nat) (dw : DeviceWork) (σ : World) (tr : List Event) (dw1 : DeviceWork) (σ1 : World)
      (tr1 : List Event),
      runPreProcessing p1 i dw σ tr = (.finished, dw1, σ1, tr1) →
      runPreProcessing (p1 ++ p2) i dw σ tr = runPreProcessing p2 (i + p1.length) dw1 σ1 tr1 := by
  induction p1 with
  | nil =>
    intro i dw σ tr dw1 σ1 tr1 h
    simp [runPreProcessing] at h
    obtain ⟨h1, h2, h3⟩ := h
    subst h1 h2 h3
    simp
  | cons f fs ih =>
    intro i dw σ tr dw1 σ1 tr1 h
    simp only [List.cons_append, runPreProcessing] at h ⊢
    rcases hf : f dw σ with ⟨r, dwf, σf⟩
    rw [hf] at h
    cases r with
    | ok =>
      simp only at h ⊢
      have e := ih _ _ _ _ _ _ _ h
      simp only [List.append_eq] at e ⊢
      rw [e]
      simp [Nat.add_assoc, Nat.add_comm 1]
    | error e => simp at h
    | panic m => simp at h

theorem runPreProcessing_finished_trace (p1 : List ProcessingFunction) :
    ∀ (i : Nat) (dw : DeviceWork) (σ : World) (tr : List Event) (dw1 : DeviceWork) (σ1 : World)
      (tr1 : List Event),
      runPreProcessing p1 i dw σ tr = (.finished, dw1, σ1, tr1) →
      tr1 = tr ++ (List.range' i p1.length).map Event.pre := by
  induction p1 with
  | nil =>
    intro i dw σ tr dw1 σ1 tr1 h
    simp [runPreProcessing] at h
    simp [h.2.2]
  | cons f fs ih =>
    intro i dw σ tr dw1 σ1 tr1 h
    simp only [runPreProcessing] at h
    rcases hf : f dw σ with ⟨r, dwf, σf⟩
    rw [hf] at h
    cases r with
    | ok =>
      simp only at h
      rw [ih _ _ _ _ _ _ _ h]
      simp [List.range'_succ]
    | error e => simp at h
    | panic m => simp at h

theorem runPostProcessing_returns (post : List ProcessingFunction) :
    ∀ (i : Nat) (dw : DeviceWork) (σ : World) (tr : List Event),
      stepsReturn post dw σ = true →
      runPostProcessing post i dw σ tr =
        (.finished, (applySteps post (dw, σ)).1, (applySteps post (dw, σ)).2,
          tr ++ (List.range' i post.length).map Event.post) := by
  induction post with
  | nil =>
    intro i dw σ tr _
    simp [runPostProcessing, applySteps]
  | cons f fs ih =>
    intro i dw σ tr h
    simp only [runPostProcessing, stepsReturn, applySteps] at h ⊢
    rcases hf : f dw σ with ⟨r, dwf, σf⟩
    rw [hf] at h
    cases r with
    | ok =>
      simp only at h ⊢
      rw [ih _ _ _ _ h]
      simp [List.range'_succ]
    | error e =>
      simp only at h ⊢
      rw [ih _ _ _ _ h]
      simp [List.range'_succ]
    | panic m => simp at h

theorem applySteps_preserves (P : World → Prop) (post : List ProcessingFunction)
    (hstep : ∀ f ∈ post, ∀ (d : DeviceWork) (s : World), P s → P (f d s).2.2) :
    ∀ (s : DeviceWork × World), P s.2 → P (applySteps post s).2 := by
  induction post with
  | nil => intro s h; simpa [applySteps] using h
  | cons f fs ih =>
    intro s h
    simp only [applySteps]
    apply ih (fun g hg => hstep g (List.mem_cons_of_mem _ hg))
    exact hstep f (List.mem_cons_self _ _) s.1 s.2 h

theorem scanBootId_first (env : Env) (skipped rest : List String) (line : String)
    (ll : Logline) (work : DeviceWork)
    (hskip : ∀ l ∈ skipped, env.ParseLogline l = none)
    (hline : env.ParseLogline line = some ll) :
    scanBootId env (skipped ++ line :: rest) work = { work with BootId := ll.BootId } := by
  induction skipped with
  | nil => simp [scanBootId, hline]
  | cons l ls ih =>
    have h1 : env.ParseLogline l = none := hskip l (List.mem_cons_self _ _)
    simp only [List.cons_append, scanBootId, h1]
    exact ih (fun x hx => hskip x (List.mem_cons_of_mem _ hx))

theorem scanBootId_none (env : Env) (lines : List String) (work : DeviceWork)
    (hnone : ∀ l ∈ lines, env.ParseLogline l = none) :
    scanBootId env lines work = work := by
  induction lines with
  | nil => simp [scanBootId]
  | cons l ls ih =>
    have h1 : env.ParseLogline l = none := hnone l (List.mem_cons_self _ _)
    simp only [scanBootId, h1]
    exact ih (fun x hx => hnone x (List.mem_cons_of_mem _ hx))

/-! ## Pre-processing failure (C2) -/

theorem runPreProcessing_succeed (p1 : List ProcessingFunction) :
    ∀ (i : Nat) (dw : DeviceWork) (σ : World) (tr : List Event),
      stepsSucceed p1 dw σ = true →
      runPreProcessing p1 i dw σ tr =
        (.finished, (applySteps p1 (dw, σ)).1, (applySteps p1 (dw, σ)).2,
          tr ++ (List.range' i p1.length).map Event.pre) := by
  induction p1 with
  | nil =>
    intro i dw σ tr _
    simp [runPreProcessing, applySteps]
  | cons f fs ih =>
    intro i dw σ tr h
    simp only [runPreProcessing, stepsSucceed, applySteps] at h ⊢
    rcases hf : f dw σ with ⟨r, dwf, σf⟩
    rw [hf] at h
    cases r with
    | ok =>
      simp only at h ⊢
      rw [ih _ _ _ _ h]
      simp [List.range'_succ]
    | error e => simp at h
    | panic m => simp at h

/-- C2: when the pre-processing steps before `f` all return nil and `f`, run on
the state those steps leave one after the other, returns an error,
`ProcessStagedWork` has run exactly the steps up to and including `f`, in
registered order, and nothing else: the state it ends in is the one `f` left, with
the failure printed; no later pre-processing step, no copy and no post-processing
step has run, and the files are those the failing step left. -/
theorem ProcessStagedWork_pre_failure_aborts (env : Env)
    (p1 p2 post : List ProcessingFunction) (f : ProcessingFunction) (work : Work) (σ : World)
    (e : String)
    (hbefore : stepsSucceed p1 (newDeviceWork work) σ = true)
    (hfail : (f (applySteps p1 (newDeviceWork work, σ)).1
      (applySteps p1 (newDeviceWork work, σ)).2).1 = .error e) :
    ProcessStagedWork env (p1 ++ f :: p2) post work σ =
        ⟨.abortedPre,
          (f (applySteps p1 (newDeviceWork work, σ)).1
            (applySteps p1 (newDeviceWork work, σ)).2).2.1,
          (f (applySteps p1 (newDeviceWork work, σ)).1
            (applySteps p1 (newDeviceWork work, σ)).2).2.2.logErr
              ("Failed to run pre-processing step " ++ e),
          (List.range (p1.length + 1)).map Event.pre⟩ ∧
      (ProcessStagedWork env (p1 ++ f :: p2) post work σ).world.files =
        (f (applySteps p1 (newDeviceWork work, σ)).1
          (applySteps p1 (newDeviceWork work, σ)).2).2.2.files := by
  have hrun1 := runPreProcessing_succeed p1 0 (newDeviceWork work) σ [] hbefore
  have hrun : runPreProcessing (p1 ++ f :: p2) 0 (newDeviceWork work) σ [] =
      (.failed e,
        (f (applySteps p1 (newDeviceWork work, σ)).1
          (applySteps p1 (newDeviceWork work, σ)).2).2.1,
        (f (applySteps p1 (newDeviceWork work, σ)).1
          (applySteps p1 (newDeviceWork work, σ)).2).2.2.logErr
            ("Failed to run pre-processing step " ++ e),
        (List.range (p1.length + 1)).map Event.pre) := by
    rw [runPreProcessing_append p1 (f :: p2) _ _ _ _ _ _ _ hrun1]
    rcases hf : f (applySteps p1 (newDeviceWork work, σ)).1
      (applySteps p1 (newDeviceWork work, σ)).2 with ⟨r, dwf, σf⟩
    rw [hf] at hfail
    simp only at hfail
    subst hfail
    simp [runPreProcessing, hf, List.range_succ, List.range_eq_range']
  have hmain : ProcessStagedWork env (p1 ++ f :: p2) post work σ =
      ⟨.abortedPre,
        (f (applySteps p1 (newDeviceWork work, σ)).1
          (applySteps p1 (newDeviceWork work, σ)).2).2.1,
        (f (applySteps p1 (newDeviceWork work, σ)).1
          (applySteps p1 (newDeviceWork work, σ)).2).2.2.logErr
            ("Failed to run pre-processing step " ++ e),
        (List.range (p1.length + 1)).map Event.pre⟩ := by
    simp only [ProcessStagedWork, beforePostProcessing, hrun]
  refine ⟨hmain, ?_⟩
  rw [hmain]
  rfl

theorem ProcessStagedWork_pre_failure_aborts_witness :
    stepsSucceed [UpdateOutFile demoEnv, markStep] (newDeviceWork workA) stagedWorld = true ∧
      (ProcessStagedWork demoEnv ([UpdateOutFile demoEnv, markStep] ++ failingStep :: [markStep])
          [markStep, UpdateMetadata demoEnv] workA stagedWorld).status = .abortedPre ∧
      (ProcessStagedWork demoEnv ([UpdateOutFile demoEnv, markStep] ++ failingStep :: [markStep])
          [markStep, UpdateMetadata demoEnv] workA stagedWorld).trace =
        [.pre 0, .pre 1, .pre 2] ∧
      (ProcessStagedWork demoEnv ([UpdateOutFile demoEnv, markStep] ++ failingStep :: [markStep])
          [markStep, UpdateMetadata demoEnv] workA stagedWorld).world.stdout =
        ["outfile: out/X.gz", "step ran"] ∧
      (ProcessStagedWork demoEnv ([UpdateOutFile demoEnv, markStep] ++ failingStep :: [markStep])
          [markStep, UpdateMetadata demoEnv] workA stagedWorld).world.stderr =
        ["Failed to run pre-processing step step failed"] ∧
      (ProcessStagedWork demoEnv ([UpdateOutFile demoEnv, markStep] ++ failingStep :: [markStep])
          [markStep, UpdateMetadata demoEnv] workA stagedWorld).world.read "out/X.gz" =
        some [] := by
  have hp : stepsSucceed [UpdateOutFile demoEnv, markStep] (newDeviceWork workA) stagedWorld =
      true := by
    decide
  have h := (ProcessStagedWork_pre_failure_aborts demoEnv [UpdateOutFile demoEnv, markStep]
    [markStep] [markStep, UpdateMetadata demoEnv] failingStep workA stagedWorld "step failed"
    hp rfl).1
  refine ⟨hp, ?_, ?_, ?_, ?_, ?_⟩ <;> rw [h] <;> decide

/-! ## Boot-session resolution (C3) -/

/-- C3, as the code has it: when the staged chunk opens and the lines its scanner
yields hold a line that `ParseLogline` accepts, preceded only by lines it rejects,
the work item has the boot identifier of that line after `UpdateOutFile`, whatever
lines follow and whatever the call returns. -/
theorem UpdateOutFile_BootId_first_parseable (env : Env) (work : DeviceWork) (σ σ1 : World)
    (skipped rest : List String) (line : String) (ll : Logline)
    (hopen : OpenFileAndReader env σ work.Work.StagingFileName =
      (.ok (skipped ++ line :: rest), σ1))
    (hskip : ∀ l ∈ skipped, env.ParseLogline l = none)
    (hline : env.ParseLogline line = some ll) :
    (UpdateOutFile env work σ).2.1.BootId = ll.BootId := by
  simp only [UpdateOutFile, hopen, scanBootId_first env skipped rest line ll work hskip hline]
  split
  · rfl
  · split
    · rfl
    · rfl

theorem UpdateOutFile_BootId_first_parseable_witness :
    OpenFileAndReader demoEnv
        (stagedWorld.write "staging/a.gz" (demoMember (ascii "kernel up\nboot=X hello\nboot=Y late\n")))
        "staging/a.gz" =
        (.ok (["kernel up"] ++ "boot=X hello" :: ["boot=Y late"]),
          stagedWorld.write "staging/a.gz"
            (demoMember (ascii "kernel up\nboot=X hello\nboot=Y late\n"))) ∧
      (UpdateOutFile demoEnv (newDeviceWork workA)
        (stagedWorld.write "staging/a.gz"
          (demoMember (ascii "kernel up\nboot=X hello\nboot=Y late\n")))).2.1.BootId = "X" := by
  have hopen : OpenFileAndReader demoEnv
      (stagedWorld.write "staging/a.gz" (demoMember (ascii "kernel up\nboot=X hello\nboot=Y late\n")))
      (newDeviceWork workA).Work.StagingFileName =
      (.ok (["kernel up"] ++ "boot=X hello" :: ["boot=Y late"]),
        stagedWorld.write "staging/a.gz"
          (demoMember (ascii "kernel up\nboot=X hello\nboot=Y late\n"))) := by
    rfl
  exact ⟨hopen, UpdateOutFile_BootId_first_parseable demoEnv (newDeviceWork workA) _ _
    ["kernel up"] ["boot=Y late"] "boot=X hello" ⟨"X", 0⟩ hopen (by decide) (by decide)⟩

theorem demoDrain_member (payload : Bytes) (hz : ∀ b ∈ payload, b ≠ 0) :
    ∀ acc : Bytes, demoDrain true (payload ++ [0]) acc = ⟨acc ++ payload, none⟩ := by
  induction payload with
  | nil =>
    intro acc
    simp [demoDrain]
  | cons b rest ih =>
    intro acc
    have hb : b ≠ 0 := hz b (List.mem_cons_self _ _)
    simp only [List.cons_append, demoDrain, hb, if_false]
    have h := ih (fun x hx => hz x (List.mem_cons_of_mem _ hx)) (acc ++ [b])
    simp only [List.append_eq] at h ⊢
    rw [h]
    simp

theorem demoNewReader_member (payload : Bytes) (hz : ∀ b ∈ payload, b ≠ 0) :
    demoNewReader (demoMember payload) = .ok ⟨payload, none⟩ := by
  have h := demoDrain_member payload hz []
  simp only [List.nil_append] at h
  simp only [demoNewReader, demoMember, List.cons_append, demoDrain, if_true, List.append_eq, h]

theorem demoScan_overlong (max : Nat) (x : UInt8) (hx : x ≠ 10) :
    ∀ (n : Nat) (rest : Bytes) (cur : List Char), 0 < n → max ≤ cur.length + n →
      demoScan max (List.replicate n x ++ rest) cur = [] := by
  intro n
  induction n with
  | zero =>
    intro rest cur h
    omega
  | succ k ih =>
    intro rest cur _ hmax
    simp only [List.replicate_succ, List.cons_append, demoScan, hx, if_false]
    by_cases hfull : max ≤ cur.length + 1
    · simp [hfull]
    · simp only [hfull, if_false]
      apply ih
      · omega
      · simp only [List.length_append, List.length_singleton]
        omega

theorem demoLines_long (x : UInt8) (hx : x ≠ 10) :
    ∀ (n : Nat) (rest : Bytes) (cur : List Char),
      demoLines (List.replicate n x ++ 10 :: rest) cur =
        String.mk (cur ++ List.replicate n (Char.ofNat x.toNat)) :: demoLines rest [] := by
  intro n
  induction n with
  | zero =>
    intro rest cur
    simp [demoLines]
  | succ k ih =>
    intro rest cur
    simp only [List.replicate_succ, List.cons_append, demoLines, hx, if_false]
    have h := ih rest (cur ++ [Char.ofNat x.toNat])
    simp only [List.append_eq] at h ⊢
    rw [h]
    simp

theorem UpdateOutFile_BootId_of_scan (env : Env) (work : DeviceWork) (σ σ1 : World)
    (lines : List String)
    (hopen : OpenFileAndReader env σ work.Work.StagingFileName = (.ok lines, σ1)) :
    (UpdateOutFile env work σ).2.1.BootId = (scanBootId env lines work).BootId := by
  simp only [UpdateOutFile, hopen]
  split
  · rfl
  · split
    · rfl
    · rfl

theorem longChunk_no_zero : ∀ b ∈ longChunk, b ≠ 0 := by
  intro b hb
  unfold longChunk longLine at hb
  rw [List.mem_append] at hb
  rcases hb with h | h
  · rw [List.eq_of_mem_replicate h]
    decide
  · revert b
    decide

/-- C3, as stated, fails on the chunk whose first line is two MiB long and whose
second line is `boot=X hello`: that line is one `ParseLogline` accepts, with the
boot identifier `X`, and it is the first such line of the chunk; the scanner,
given a buffer of one MiB, stops at the long line without yielding any, and
`UpdateOutFile` leaves the `BootId` of the work item empty. -/
theorem UpdateOutFile_overlong_line_hides_boot_id :
    longWorld.read workLong.StagingFileName = some (demoMember longChunk) ∧
      decompress demoEnv (demoMember longChunk) = some longChunk ∧
      demoLines longChunk [] = [String.mk (List.replicate 2097152 'x'), "boot=X hello"] ∧
      demoEnv.ParseLogline (String.mk (List.replicate 2097152 'x')) = none ∧
      demoEnv.ParseLogline "boot=X hello" = some ⟨"X", 0⟩ ∧
      demoEnv.Reader 1048576 (demoMember longChunk) = .ok [] ∧
      (UpdateOutFile demoEnv (newDeviceWork workLong) longWorld).2.1.BootId = "" := by
  have hread : longWorld.read workLong.StagingFileName = some (demoMember longChunk) := rfl
  have hgz : demoNewReader (demoMember longChunk) = .ok ⟨longChunk, none⟩ :=
    demoNewReader_member longChunk longChunk_no_zero
  have hscan : demoScan 1048576 longChunk [] = [] := by
    unfold longChunk longLine
    exact demoScan_overlong 1048576 120 (by decide) 2097152 _ [] (by decide) (by decide)
  have hreader : demoEnv.Reader 1048576 (demoMember longChunk) = .ok [] := by
    show demoReader 1048576 (demoMember longChunk) = .ok []
    simp only [demoReader, hgz, hscan]
  have hopen : OpenFileAndReader demoEnv longWorld (newDeviceWork workLong).Work.StagingFileName =
      (.ok [], longWorld) := by
    have hfault : demoEnv.openFault workLong.StagingFileName .rdonly = none := rfl
    show OpenFileAndReader demoEnv longWorld workLong.StagingFileName = (.ok [], longWorld)
    simp only [OpenFileAndReader, gocommons_Open, hfault, hread, hreader]
  refine ⟨hread, ?_, ?_, ?_, by decide, hreader, ?_⟩
  · show decompress demoEnv (demoMember longChunk) = some longChunk
    unfold decompress
    show (match demoNewReader (demoMember longChunk) with
      | .ok s => if s.readErr = none then some s.data else none
      | .error _ => none) = some longChunk
    rw [hgz]
    rfl
  · unfold longChunk longLine
    have h := demoLines_long 120 (by decide) 2097152 (ascii "boot=X hello\n") []
    have ha : ascii "\nboot=X hello\n" = 10 :: ascii "boot=X hello\n" := by decide
    rw [ha, h]
    have hx : Char.ofNat (120 : UInt8).toNat = 'x' := by decide
    have ht : demoLines (ascii "boot=X hello\n") [] = ["boot=X hello"] := by decide
    rw [hx, ht]
    rfl
  · show demoParseLogline (String.mk (List.replicate 2097152 'x')) = none
    unfold demoParseLogline
    have hp : ("boot=".toList.isPrefixOf (String.mk (List.replicate 2097152 'x')).toList) =
        false := by
      show ("boot=".toList.isPrefixOf (List.replicate (2097151 + 1) 'x')) = false
      rw [List.replicate_succ]
      rfl
    rw [hp]
    rfl
  · rw [UpdateOutFile_BootId_of_scan demoEnv _ _ _ _ hopen]
    rfl

/-! ## The metadata merge (C5, C6) -/

theorem gocommons_Open_ok (env : Env) (σ σ1 : World) (p : String) (mode : OpenMode)
    (content : Bytes) (h : gocommons_Open env σ p mode = .ok (content, σ1)) :
    content = (σ.read p).getD [] ∧ σ1.read p = some content ∧ σ1.dirs = σ.dirs ∧
      σ1.stderr = σ.stderr ∧ σ1.stdout = σ.stdout ∧
      (∀ q, q ≠ p → σ1.read q = σ.read q) ∧ (σ.read p ≠ none → σ1 = σ) := by
  unfold gocommons_Open at h
  split at h
  · simp at h
  · split at h
    · next c hc =>
      simp only [Except.ok.injEq, Prod.mk.injEq] at h
      obtain ⟨h1, h2⟩ := h
      subst h1 h2
      simp [hc]
    · next hc =>
      split at h
      · simp only [Except.ok.injEq, Prod.mk.injEq] at h
        obtain ⟨h1, h2⟩ := h
        subst h1 h2
        refine ⟨by simp [hc], read_write_same _ _ _, rfl, rfl, rfl, ?_, ?_⟩
        · intro q hq
          exact read_write_other _ _ _ _ hq
        · intro hne
          exact absurd hc hne
      · simp at h

theorem writeMetadata_ok (env : Env) (work work1 : DeviceWork) (σ σ1 : World) (p : String)
    (content : Bytes) (existing : OutMetadata)
    (h : writeMetadata env work σ p content existing = (.ok, work1, σ1)) :
    ∃ bytes, env.Marshal (appendEvent existing work) = .ok bytes ∧
      σ1 = σ.write p (overwrite content bytes) := by
  unfold writeMetadata at h
  cases hw : env.WriterFault p with
  | some e => simp [hw] at h
  | none =>
    cases hm : env.Marshal (appendEvent existing work) with
    | error e => simp [hw, hm] at h
    | ok bytes =>
      cases hf : env.writeFault p with
      | some en =>
        obtain ⟨e, n⟩ := en
        simp [hw, hm, hf] at h
      | none =>
        simp only [hw, hm, hf, Prod.mk.injEq, true_and] at h
        exact ⟨bytes, rfl, h.2.symm⟩

theorem UpdateMetadata_ok (env : Env) (work work1 : DeviceWork) (σ σ1 : World)
    (hok : UpdateMetadata env work σ = (.ok, work1, σ1)) :
    ∃ bytes,
      env.Marshal (appendEvent
        (existingRecord env σ (env.Join work.Work.OutDir (work.BootId ++ ".yaml"))) work) =
          .ok bytes ∧
      σ1.read (env.Join work.Work.OutDir (work.BootId ++ ".yaml")) =
        some (overwrite ((σ.read (env.Join work.Work.OutDir (work.BootId ++ ".yaml"))).getD [])
          bytes) ∧
      σ1.dirs = σ.dirs ∧
      ((gocommons_Exists env σ (env.Join work.Work.OutDir (work.BootId ++ ".yaml"))).1 = true →
        (existingRecord env σ (env.Join work.Work.OutDir (work.BootId ++ ".yaml"))).DeviceId =
          work.Work.DeviceId) := by
  unfold UpdateMetadata at hok
  simp only at hok
  split at hok
  · simp at hok
  · next content σo hopen =>
    obtain ⟨hc, _, hdirs, _, _, _, _⟩ := gocommons_Open_ok env σ σo _ _ content hopen
    by_cases hex : (gocommons_Exists env σ (env.Join work.Work.OutDir (work.BootId ++ ".yaml"))).1 = true
    · simp only [hex, if_true] at hok
      split at hok
      · simp at hok
      · split at hok
        · simp at hok
        · next hdev =>
          obtain ⟨bytes, hm, hw⟩ := writeMetadata_ok env work work1 σo σ1 _ content _ hok
          have hdev2 : (env.Unmarshal content).DeviceId = work.Work.DeviceId := by
            simpa using hdev
          refine ⟨bytes, ?_, ?_, ?_, ?_⟩
          · simpa [existingRecord, hex, ← hc] using hm
          · rw [hw, read_write_same, ← hc]
          · rw [hw]
            simpa [World.write] using hdirs
          · intro _
            simpa [existingRecord, hex, ← hc] using hdev2
    · simp only [hex] at hok
      obtain ⟨bytes, hm, hw⟩ := writeMetadata_ok env work work1 σo σ1 _ content _ hok
      refine ⟨bytes, ?_, ?_, ?_, ?_⟩
      · simpa [existingRecord, hex] using hm
      · rw [hw, read_write_same, ← hc]
      · rw [hw]
        simpa [World.write] using hdirs
      · intro h
        exact absurd h hex

/-- C5: on an existing metadata file that opens and reads, and whose stored device
identifier differs from that of the work item, `UpdateMetadata` panics: it returns no
result, and the world, the metadata file included, is what it was. -/
theorem UpdateMetadata_device_mismatch_panics (env : Env) (work : DeviceWork) (σ : World)
    (old : Bytes)
    (hex : (gocommons_Exists env σ (env.Join work.Work.OutDir (work.BootId ++ ".yaml"))).1 = true)
    (hfile : σ.read (env.Join work.Work.OutDir (work.BootId ++ ".yaml")) = some old)
    (hopen : env.openFault (env.Join work.Work.OutDir (work.BootId ++ ".yaml")) .rdwrCreate = none)
    (hread : env.readFault (env.Join work.Work.OutDir (work.BootId ++ ".yaml")) = none)
    (hdiff : (env.Unmarshal old).DeviceId ≠ work.Work.DeviceId) :
    UpdateMetadata env work σ = (.panic (mismatchMessage work), work, σ) := by
  simp [UpdateMetadata, gocommons_Open, hopen, hfile, hex, hread, hdiff]

theorem UpdateMetadata_device_mismatch_panics_witness :
    worldAfterA.read "out/X.yaml" = some (demoText recordA) ∧
      (demoUnmarshal (demoText recordA)).DeviceId = "D1" ∧
      UpdateMetadata demoEnv (resolved workC) worldAfterA =
        (.panic "DeviceIDs don\x27t match! YAML() != work(D2)", resolved workC, worldAfterA) := by
  refine ⟨by decide, by decide, ?_⟩
  exact UpdateMetadata_device_mismatch_panics demoEnv (resolved workC) worldAfterA
    (demoText recordA) (by decide) (by decide) (by rfl) (by rfl) (by decide)

/-- C6: a call of `UpdateMetadata` that returns nil leaves in the metadata file the
serialisation of a record whose device identifier is that of the work item and
whose five sequences are those of the record it started from (the one read from
the existing file, whose device identifier matches; the empty one when `Exists`
reports no file), each with the value of the work item put at the end and the
earlier elements in place; with no existing file each sequence has that one
element. -/
theorem UpdateMetadata_appends_one_event (env : Env) (work work1 : DeviceWork) (σ σ1 : World)
    (hok : UpdateMetadata env work σ = (.ok, work1, σ1)) :
    ∃ (r : OutMetadata) (bytes : Bytes),
      env.Marshal r = .ok bytes ∧
      σ1.read (env.Join work.Work.OutDir (work.BootId ++ ".yaml")) =
        some (overwrite ((σ.read (env.Join work.Work.OutDir (work.BootId ++ ".yaml"))).getD [])
          bytes) ∧
      r.DeviceId = work.Work.DeviceId ∧
      ((gocommons_Exists env σ (env.Join work.Work.OutDir (work.BootId ++ ".yaml"))).1 = true →
        (existingRecord env σ (env.Join work.Work.OutDir (work.BootId ++ ".yaml"))).DeviceId =
          work.Work.DeviceId) ∧
      ExtendsBy (existingRecord env σ (env.Join work.Work.OutDir (work.BootId ++ ".yaml"))).Versions
        r.Versions work.Work.Version ∧
      ExtendsBy
        (existingRecord env σ (env.Join work.Work.OutDir (work.BootId ++ ".yaml"))).PackageNames
        r.PackageNames work.Work.PackageName ∧
      ExtendsBy
        (existingRecord env σ (env.Join work.Work.OutDir (work.BootId ++ ".yaml"))).UploadTimestamps
        r.UploadTimestamps work.Work.UploadTimestamp ∧
      ExtendsBy
        (existingRecord env σ (env.Join work.Work.OutDir (work.BootId ++ ".yaml"))).StartTimestamps
        r.StartTimestamps work.StartTimestamp ∧
      ExtendsBy
        (existingRecord env σ (env.Join work.Work.OutDir (work.BootId ++ ".yaml"))).EndTimestamps
        r.EndTimestamps work.EndTimestamp ∧
      ((gocommons_Exists env σ (env.Join work.Work.OutDir (work.BootId ++ ".yaml"))).1 = false →
        r.Versions = [work.Work.Version] ∧ r.PackageNames = [work.Work.PackageName] ∧
        r.UploadTimestamps = [work.Work.UploadTimestamp] ∧
        r.StartTimestamps = [work.StartTimestamp] ∧ r.EndTimestamps = [work.EndTimestamp]) := by
  obtain ⟨bytes, hm, hr, _, hd⟩ := UpdateMetadata_ok env work work1 σ σ1 hok
  have hext : ∀ {α : Type} (l : List α) (x : α), ExtendsBy l (l ++ [x]) x := by
    intro α l x
    refine ⟨rfl, by simp, ?_⟩
    intro i hi
    exact List.getElem?_append_left hi
  refine ⟨_, bytes, hm, hr, rfl, hd, hext _ _, hext _ _, hext _ _, hext _ _, hext _ _, ?_⟩
  intro hno
  simp [appendEvent, existingRecord, hno]

theorem UpdateMetadata_appends_one_event_witness :
    UpdateMetadata demoEnv (resolved workB) worldAfterA =
        (.ok, resolved workB, (UpdateMetadata demoEnv (resolved workB) worldAfterA).2.2) ∧
      ∃ (r : OutMetadata) (bytes : Bytes), demoEnv.Marshal r = .ok bytes ∧ r.DeviceId = "D1" ∧
        r.Versions = ["1.0", "1.1"] ∧
        (UpdateMetadata demoEnv (resolved workB) worldAfterA).2.2.read "out/X.yaml" =
          some (overwrite (demoText recordA) bytes) := by
  have hok : UpdateMetadata demoEnv (resolved workB) worldAfterA =
      (.ok, resolved workB, (UpdateMetadata demoEnv (resolved workB) worldAfterA).2.2) := by
    decide
  obtain ⟨r, bytes, hm, hr, hd, _, hv, _⟩ :=
    UpdateMetadata_appends_one_event demoEnv _ _ _ _ hok
  refine ⟨hok, r, bytes, hm, hd, ?_, ?_⟩
  · rw [hv.1]
    decide
  · exact hr

/-! ## Post-processing (C10) -/

/-- C10: when `ProcessStagedWork` reaches the post-processing loop and every
post-processing step returns (nil or an error), each step is run once, in
registered order, on the state the previous one left; `ProcessStagedWork` ends
the same way whatever the steps returned, and the final world is the world after
the transfer with the effects of the steps and nothing else: a file no step
touches, the archive for one, still has the content the transfer gave it. -/
theorem ProcessStagedWork_runs_every_post_step (env : Env)
    (pre post : List ProcessingFunction) (work : Work) (σ : World) (dw : DeviceWork)
    (σ1 : World) (tr : List Event)
    (hreach : beforePostProcessing env pre work σ = .ok (dw, σ1, tr))
    (hret : stepsReturn post dw σ1 = true) :
    ProcessStagedWork env pre post work σ =
        ⟨.done, (applySteps post (dw, σ1)).1, (applySteps post (dw, σ1)).2,
          tr ++ (List.range post.length).map Event.post⟩ ∧
      ∀ p : String, (∀ f ∈ post, ∀ (d : DeviceWork) (s : World), (f d s).2.2.read p = s.read p) →
        (ProcessStagedWork env pre post work σ).world.read p = σ1.read p := by
  have hmain : ProcessStagedWork env pre post work σ =
      ⟨.done, (applySteps post (dw, σ1)).1, (applySteps post (dw, σ1)).2,
        tr ++ (List.range post.length).map Event.post⟩ := by
    simp only [ProcessStagedWork, hreach, runPostProcessing_returns post 0 dw σ1 tr hret,
      List.range_eq_range']
  refine ⟨hmain, ?_⟩
  intro p hp
  rw [hmain]
  exact applySteps_preserves (fun s => s.read p = σ1.read p) post
    (fun f hf d s hs => (hp f hf d s).trans hs) (dw, σ1) rfl

theorem ProcessStagedWork_runs_every_post_step_witness :
    beforePostProcessing demoEnv (defaultPreProcessing demoEnv) workA stagedWorld =
        .ok (resolved workA, transferredA, [.pre 0]) ∧
      stepsReturn [failingStep, markStep, UpdateMetadata demoEnv] (resolved workA) transferredA =
        true ∧
      (ProcessStagedWork demoEnv (defaultPreProcessing demoEnv)
          [failingStep, markStep, UpdateMetadata demoEnv] workA stagedWorld).status = .done ∧
      (ProcessStagedWork demoEnv (defaultPreProcessing demoEnv)
          [failingStep, markStep, UpdateMetadata demoEnv] workA stagedWorld).trace =
        [.pre 0, .post 0, .post 1, .post 2] ∧
      (ProcessStagedWork demoEnv (defaultPreProcessing demoEnv)
          [failingStep, markStep, UpdateMetadata demoEnv] workA stagedWorld).world.stdout =
        ["outfile: out/X.gz", "step ran"] ∧
      (ProcessStagedWork demoEnv (defaultPreProcessing demoEnv)
          [failingStep, markStep, UpdateMetadata demoEnv] workA stagedWorld).world.read
          "out/X.yaml" = some (demoText recordA) := by
  have hreach : beforePostProcessing demoEnv (defaultPreProcessing demoEnv) workA stagedWorld =
      .ok (resolved workA, transferredA, [.pre 0]) := by
    rfl
  have hret : stepsReturn [failingStep, markStep, UpdateMetadata demoEnv] (resolved workA)
      transferredA = true := by
    decide
  have h := (ProcessStagedWork_runs_every_post_step demoEnv (defaultPreProcessing demoEnv)
    [failingStep, markStep, UpdateMetadata demoEnv] workA stagedWorld _ _ _ hreach hret).1
  refine ⟨hreach, hret, ?_, ?_, ?_, ?_⟩ <;> rw [h] <;> decide

/-! ## A chunk without a parseable line (C4) -/

theorem status_of_finished_pre (env : Env) (pre post : List ProcessingFunction) (work : Work)
    (σ : World) (dw : DeviceWork) (σ1 : World) (tr : List Event)
    (h : runPreProcessing pre 0 (newDeviceWork work) σ [] = (.finished, dw, σ1, tr)) :
    (ProcessStagedWork env pre post work σ).status ≠ .abortedPre := by
  have hpost : ∀ (d : DeviceWork) (s : World) (t : List Event),
      (match runPostProcessing post 0 d s t with
        | (.panicked m, dw2, σ2, tr2) => (⟨.panicked m, dw2, σ2, tr2⟩ : Outcome)
        | (_, dw2, σ2, tr2) => ⟨.done, dw2, σ2, tr2⟩).status ≠ .abortedPre := by
    intro d s t
    rcases runPostProcessing post 0 d s t with ⟨ex, dw2, σ2, tr2⟩
    cases ex <;> simp
  simp only [ProcessStagedWork, beforePostProcessing, h]
  cases h1 : gocommons_Open env σ1 work.StagingFileName .rdonly with
  | error e => simp
  | ok v =>
    obtain ⟨staged, σ2⟩ := v
    simp only
    cases h2 : env.gzipNewReader staged with
    | error e => simp
    | ok compressedReader =>
      simp only
      cases h3 : dw.OutFile with
      | none => simp
      | some out =>
        simp only
        cases h4 : gocommons_Open env σ2 out.Path .wrAppend with
        | error e => simp
        | ok v4 =>
          obtain ⟨archive, σ3⟩ := v4
          simp only
          rcases h5 : writerPhase env compressedReader out.Path archive σ3 tr with ⟨pm, σ4, tr4⟩
          cases pm with
          | some m => simp
          | none => exact hpost _ _ _


/-- C4, as the code has it: when no line of the staged chunk is accepted by
`ParseLogline`, `UpdateOutFile` does not fail on that account.  The work item keeps
the `BootId` it had, on every return path; an error it returns is that of creating
the output directory or of opening the archive; and once the output directory is
there and the archive named by that `BootId` opens, `UpdateOutFile` returns nil
with that archive open and present.  For the fresh work item of
`ProcessStagedWork`, whose `BootId` is empty, the pre-processing with the default
steps then finishes without aborting. -/
theorem UpdateOutFile_no_parseable_line (env : Env) (work : DeviceWork) (σ σ1 : World)
    (lines : List String)
    (hopen : OpenFileAndReader env σ work.Work.StagingFileName = (.ok lines, σ1))
    (hnone : ∀ l ∈ lines, env.ParseLogline l = none) :
    (UpdateOutFile env work σ).2.1.BootId = work.BootId ∧
      (∀ e, (UpdateOutFile env work σ).1 = .error e →
        ensureOutDir env σ1 work.Work.OutDir = .error e ∨
        ∃ σ2, ensureOutDir env σ1 work.Work.OutDir = .ok σ2 ∧
          gocommons_Open env
            (σ2.logOut ("outfile: " ++ env.Join work.Work.OutDir (work.BootId ++ ".gz")))
            (env.Join work.Work.OutDir (work.BootId ++ ".gz")) .wrCreateAppend = .error e) ∧
      ∀ (σ2 σ4 : World) (c : Bytes),
        ensureOutDir env σ1 work.Work.OutDir = .ok σ2 →
        gocommons_Open env
          (σ2.logOut ("outfile: " ++ env.Join work.Work.OutDir (work.BootId ++ ".gz")))
          (env.Join work.Work.OutDir (work.BootId ++ ".gz")) .wrCreateAppend = .ok (c, σ4) →
        UpdateOutFile env work σ =
            (.ok,
              { work with OutFile := some ⟨env.Join work.Work.OutDir (work.BootId ++ ".gz")⟩ },
              σ4) ∧
          σ4.read (env.Join work.Work.OutDir (work.BootId ++ ".gz")) = some c ∧
          (work = newDeviceWork work.Work →
            work.BootId = "" ∧
            runPreProcessing (defaultPreProcessing env) 0 (newDeviceWork work.Work) σ [] =
              (.finished,
                { work with
                  OutFile := some ⟨env.Join work.Work.OutDir (work.BootId ++ ".gz")⟩ },
                σ4, [.pre 0]) ∧
            ∀ post, (ProcessStagedWork env (defaultPreProcessing env) post work.Work σ).status ≠
              .abortedPre) := by
  have hscan := scanBootId_none env lines work hnone
  refine ⟨?_, ?_, ?_⟩
  · simp only [UpdateOutFile, hopen, hscan]
    split
    · rfl
    · split
      · rfl
      · rfl
  · intro e he
    simp only [UpdateOutFile, hopen, hscan] at he
    cases hd : ensureOutDir env σ1 work.Work.OutDir with
    | error e1 =>
      rw [hd] at he
      simp only [StepResult.error.injEq] at he
      exact Or.inl (by rw [← he])
    | ok σ2 =>
      rw [hd] at he
      simp only at he
      cases ha : gocommons_Open env
          (σ2.logOut ("outfile: " ++ env.Join work.Work.OutDir (work.BootId ++ ".gz")))
          (env.Join work.Work.OutDir (work.BootId ++ ".gz")) .wrCreateAppend with
      | error e2 =>
        rw [ha] at he
        simp only [StepResult.error.injEq] at he
        exact Or.inr ⟨σ2, rfl, by rw [← he]; exact ha⟩
      | ok v =>
        rw [ha] at he
        simp at he
  · intro σ2 σ4 c hdir harch
    have hU : UpdateOutFile env work σ =
        (.ok,
          { work with OutFile := some ⟨env.Join work.Work.OutDir (work.BootId ++ ".gz")⟩ },
          σ4) := by
      simp only [UpdateOutFile, hopen, hscan, hdir, harch]
    refine ⟨hU, (gocommons_Open_ok env _ σ4 _ _ c harch).2.1, ?_⟩
    intro hfresh
    have hP : runPreProcessing (defaultPreProcessing env) 0 (newDeviceWork work.Work) σ [] =
        (.finished,
          { work with OutFile := some ⟨env.Join work.Work.OutDir (work.BootId ++ ".gz")⟩ },
          σ4, [.pre 0]) := by
      rw [← hfresh]
      simp [defaultPreProcessing, runPreProcessing, hU]
    refine ⟨?_, hP, ?_⟩
    · rw [hfresh]
      rfl
    · intro post
      exact status_of_finished_pre env _ post work.Work σ _ _ _ hP

theorem UpdateOutFile_no_parseable_line_witness :
    OpenFileAndReader demoEnv stagedWorld workZ.Work.StagingFileName =
        (.ok ["hello", "world"], stagedWorld) ∧
      (∀ l ∈ ["hello", "world"], demoEnv.ParseLogline l = none) ∧
      (UpdateOutFile demoEnv workZ stagedWorld).1 = .ok ∧
      (UpdateOutFile demoEnv workZ stagedWorld).2.1.BootId = "Z" ∧
      (UpdateOutFile demoEnv workZ stagedWorld).2.1.OutFile = some ⟨"out/Z.gz"⟩ ∧
      (UpdateOutFile demoEnv workZ stagedWorld).2.2.read "out/Z.gz" = some [] := by
  have hopen : OpenFileAndReader demoEnv stagedWorld workZ.Work.StagingFileName =
      (.ok ["hello", "world"], stagedWorld) := by
    rfl
  have hnone : ∀ l ∈ ["hello", "world"], demoEnv.ParseLogline l = none := by
    decide
  have h := UpdateOutFile_no_parseable_line demoEnv workZ stagedWorld stagedWorld
    ["hello", "world"] hopen hnone
  have h3 := h.2.2 { stagedWorld with dirs := "out" :: stagedWorld.dirs }
    (({ stagedWorld with dirs := "out" :: stagedWorld.dirs } : World).logOut
      "outfile: out/Z.gz" |>.write "out/Z.gz" []) [] rfl rfl
  refine ⟨hopen, hnone, ?_, h.1, ?_, ?_⟩
  · rw [h3.1]
  · rw [h3.1]
    rfl
  · rw [h3.1]
    exact h3.2.1

/-- C4, as stated, fails on the chunk `hello`, `world`: none of its lines is
accepted, yet `UpdateOutFile` returns nil, and `ProcessStagedWork` with the default
steps creates the archive `out/.gz` and the metadata file `out/.yaml`, neither of
which was there before. -/
theorem no_parseable_line_still_creates_files :
    demoEnv.Reader 1048576 (demoMember (ascii "hello\nworld\n")) = .ok ["hello", "world"] ∧
      (∀ l ∈ ["hello", "world"], demoEnv.ParseLogline l = none) ∧
      (UpdateOutFile demoEnv (newDeviceWork workJunk) stagedWorld).1 = .ok ∧
      stagedWorld.read "out/.gz" = none ∧ stagedWorld.read "out/.yaml" = none ∧
      (ProcessStagedWork demoEnv (defaultPreProcessing demoEnv) (defaultPostProcessing demoEnv)
        workJunk stagedWorld).status = .done ∧
      (ProcessStagedWork demoEnv (defaultPreProcessing demoEnv) (defaultPostProcessing demoEnv)
        workJunk stagedWorld).world.read "out/.gz" = some (demoMember []) ∧
      ((ProcessStagedWork demoEnv (defaultPreProcessing demoEnv) (defaultPostProcessing demoEnv)
        workJunk stagedWorld).world.read "out/.yaml").isSome = true := by
  refine ⟨rfl, by decide, by decide, by decide, by decide, by decide, by decide, by decide⟩

/-! ## Sequences of metadata updates (C7) -/

theorem runUpdates_append (env : Env) (ws : List DeviceWork) (w : DeviceWork) :
    ∀ σ σ2, runUpdates env (ws ++ [w]) σ = some σ2 →
      ∃ σ1 w1, runUpdates env ws σ = some σ1 ∧ UpdateMetadata env w σ1 = (.ok, w1, σ2) := by
  induction ws with
  | nil =>
    intro σ σ2 h
    simp only [List.nil_append, runUpdates] at h
    rcases hU : UpdateMetadata env w σ with ⟨r, w1, σ1⟩
    rw [hU] at h
    cases r with
    | ok =>
      simp only [Option.some.injEq] at h
      subst h
      exact ⟨σ, w1, rfl, hU⟩
    | error e => simp at h
    | panic m => simp at h
  | cons a as ih =>
    intro σ σ2 h
    simp only [List.cons_append, runUpdates] at h ⊢
    rcases hU : UpdateMetadata env a σ with ⟨r, w1, σ1⟩
    rw [hU] at h
    cases r with
    | ok =>
      simp only at h ⊢
      exact ih σ1 σ2 h
    | error e => simp at h
    | panic m => simp at h

theorem eventsRecord_append (ws : List DeviceWork) (w : DeviceWork) :
    eventsRecord (ws ++ [w]) = appendEvent (eventsRecord ws) w := by
  simp [eventsRecord, List.foldl_append]

theorem eventsRecord_lengths (ws : List DeviceWork) :
    (eventsRecord ws).Versions.length = ws.length ∧
      (eventsRecord ws).PackageNames.length = ws.length ∧
      (eventsRecord ws).UploadTimestamps.length = ws.length ∧
      (eventsRecord ws).StartTimestamps.length = ws.length ∧
      (eventsRecord ws).EndTimestamps.length = ws.length := by
  induction ws using List.reverseRecOn with
  | nil => simp [eventsRecord]
  | append_singleton l a ih =>
    rw [eventsRecord_append]
    simp [appendEvent, ih]

theorem runUpdates_invariant (env : Env) (p : String) (σ0 : World)
    (hstat : env.statFault p = none) (habs : σ0.read p = none) (hdir : p ∉ σ0.dirs) :
    ∀ (ws : List DeviceWork) (σ : World),
      (∀ w ∈ ws, env.Join w.Work.OutDir (w.BootId ++ ".yaml") = p) →
      (∀ k, k ≤ ws.length → roundTrips env (eventsRecord (ws.take k)) = true) →
      (∀ k, k < ws.length →
        noShorter env (eventsRecord (ws.take k)) (eventsRecord (ws.take (k + 1))) = true) →
      runUpdates env ws σ0 = some σ →
      σ.dirs = σ0.dirs ∧ (ws = [] → σ = σ0) ∧
        (ws ≠ [] → ∃ b, σ.read p = some b ∧ env.Marshal (eventsRecord ws) = .ok b ∧
          env.Unmarshal b = eventsRecord ws ∧
          ∀ w ∈ ws, w.Work.DeviceId = (eventsRecord ws).DeviceId) := by
  intro ws
  induction ws using List.reverseRecOn with
  | nil =>
    intro σ _ _ _ hrun
    simp only [runUpdates, Option.some.injEq] at hrun
    subst hrun
    simp
  | append_singleton l a ih =>
    intro σ hpath hrt hgrow hrun
    obtain ⟨σ1, w1, hrun1, hU⟩ := runUpdates_append env l a σ0 σ hrun
    have hpa : env.Join a.Work.OutDir (a.BootId ++ ".yaml") = p :=
      hpath a (by simp)
    have hrtl : ∀ k, k ≤ l.length → roundTrips env (eventsRecord (l.take k)) = true := by
      intro k hk
      have := hrt k (by simp; omega)
      rwa [List.take_append_of_le_length hk] at this
    have hgrowl : ∀ k, k < l.length →
        noShorter env (eventsRecord (l.take k)) (eventsRecord (l.take (k + 1))) = true := by
      intro k hk
      have := hgrow k (by simp; omega)
      rwa [List.take_append_of_le_length (by omega), List.take_append_of_le_length (by omega)]
        at this
    obtain ⟨hd1, hnil, hcons⟩ :=
      ih σ1 (fun w hw => hpath w (by simp [hw])) hrtl hgrowl hrun1
    obtain ⟨bytes, hm, hr, hd2, hdev⟩ := UpdateMetadata_ok env a w1 σ1 σ hU
    rw [hpa] at hm hr hdev
    have hrtfull : roundTrips env (eventsRecord (l ++ [a])) = true := by
      have := hrt (l.length + 1) (by simp)
      rwa [List.take_of_length_le (by simp)] at this
    refine ⟨hd2.trans hd1, by simp, ?_⟩
    intro _
    by_cases hl : l = []
    · subst hl
      have hσ1 : σ1 = σ0 := hnil rfl
      subst hσ1
      have hex : existingRecord env σ1 p = {} := by
        simp [existingRecord, gocommons_Exists, hstat, habs, hdir]
      rw [hex] at hm
      have hrec : eventsRecord ([] ++ [a]) = appendEvent {} a := by
        simp [eventsRecord]
      rw [hrec] at hrtfull ⊢
      refine ⟨bytes, ?_, hm, ?_, ?_⟩
      · rw [hr, habs]
        simp [overwrite_nil]
      · simpa [roundTrips, hm] using hrtfull
      · intro w hw
        simp only [List.nil_append, List.mem_singleton] at hw
        subst hw
        rfl
    · obtain ⟨b, hb, hmb, hub, hdevs⟩ := hcons hl
      have hexists : (gocommons_Exists env σ1 p).1 = true := by
        simp [gocommons_Exists, hstat, hb]
      have hex : existingRecord env σ1 p = eventsRecord l := by
        simp [existingRecord, hexists, hb, hub]
      rw [hex] at hm
      have hdevl : (eventsRecord l).DeviceId = a.Work.DeviceId := by
        have := hdev hexists
        rwa [hex] at this
      rw [eventsRecord_append] at hrtfull ⊢
      have hlen : b.length ≤ bytes.length := by
        have := hgrow l.length (by simp)
        rw [List.take_left, List.take_of_length_le (by simp), eventsRecord_append] at this
        simpa [noShorter, hmb, hm] using this
      refine ⟨bytes, ?_, hm, ?_, ?_⟩
      · rw [hr, hb]
        simp [overwrite_of_le _ _ hlen]
      · simpa [roundTrips, hm] using hrtfull
      · intro w hw
        simp only [List.mem_append, List.mem_singleton] at hw
        rcases hw with hw | hw
        · rw [hdevs w hw, hdevl]
          rfl
        · subst hw
          rfl

/-- C7: starting without a metadata file, a sequence of calls of `UpdateMetadata`
for one boot session that all return nil leaves a metadata file whose record has
five sequences of the length of the sequence of calls and the device identifier of
the first call (the YAML library reading back what it wrote, and a record with one
more event not serialising shorter). -/
theorem UpdateMetadata_sequence_invariants (env : Env) (p : String) (σ0 σ : World)
    (first : DeviceWork) (rest : List DeviceWork)
    (hstat : env.statFault p = none) (habs : σ0.read p = none) (hdir : p ∉ σ0.dirs)
    (hpath : ∀ w ∈ first :: rest, env.Join w.Work.OutDir (w.BootId ++ ".yaml") = p)
    (hrt : ∀ k, k ≤ (first :: rest).length →
      roundTrips env (eventsRecord ((first :: rest).take k)) = true)
    (hgrow : ∀ k, k < (first :: rest).length →
      noShorter env (eventsRecord ((first :: rest).take k))
        (eventsRecord ((first :: rest).take (k + 1))) = true)
    (hrun : runUpdates env (first :: rest) σ0 = some σ) :
    ∃ b, σ.read p = some b ∧
      (env.Unmarshal b).Versions.length = (first :: rest).length ∧
      (env.Unmarshal b).PackageNames.length = (first :: rest).length ∧
      (env.Unmarshal b).UploadTimestamps.length = (first :: rest).length ∧
      (env.Unmarshal b).StartTimestamps.length = (first :: rest).length ∧
      (env.Unmarshal b).EndTimestamps.length = (first :: rest).length ∧
      (env.Unmarshal b).DeviceId = first.Work.DeviceId := by
  obtain ⟨_, _, h⟩ :=
    runUpdates_invariant env p σ0 hstat habs hdir (first :: rest) σ hpath hrt hgrow hrun
  obtain ⟨b, hb, _, hu, hdev⟩ := h (by simp)
  obtain ⟨l1, l2, l3, l4, l5⟩ := eventsRecord_lengths (first :: rest)
  refine ⟨b, hb, ?_, ?_, ?_, ?_, ?_, ?_⟩
  · rw [hu]; exact l1
  · rw [hu]; exact l2
  · rw [hu]; exact l3
  · rw [hu]; exact l4
  · rw [hu]; exact l5
  · rw [hu]; exact (hdev first (by simp)).symm

theorem UpdateMetadata_sequence_invariants_witness :
    runUpdates demoEnv [resolved workA, resolved workB] transferredA =
        some (UpdateMetadata demoEnv (resolved workB)
          (UpdateMetadata demoEnv (resolved workA) transferredA).2.2).2.2 ∧
      ∃ b, (UpdateMetadata demoEnv (resolved workB)
          (UpdateMetadata demoEnv (resolved workA) transferredA).2.2).2.2.read "out/X.yaml" =
            some b ∧
        (demoEnv.Unmarshal b).Versions.length = 2 ∧
        (demoEnv.Unmarshal b).EndTimestamps.length = 2 ∧
        (demoEnv.Unmarshal b).DeviceId = "D1" := by
  have hrun : runUpdates demoEnv [resolved workA, resolved workB] transferredA =
      some (UpdateMetadata demoEnv (resolved workB)
        (UpdateMetadata demoEnv (resolved workA) transferredA).2.2).2.2 := by
    decide
  obtain ⟨b, hb, h1, _, _, _, h5, h6⟩ :=
    UpdateMetadata_sequence_invariants demoEnv "out/X.yaml" transferredA _ (resolved workA)
      [resolved workB] rfl (by decide) (by decide) (by decide) (by decide) (by decide) hrun
  exact ⟨hrun, b, hb, h1, h5, h6⟩

/-! ## The rewrite of the metadata file (C8) -/

theorem UpdateMetadata_rewrite_exact_of_le (env : Env) (work work1 : DeviceWork) (σ σ1 : World)
    (hok : UpdateMetadata env work σ = (.ok, work1, σ1)) :
    ∃ bytes,
      env.Marshal (appendEvent
        (existingRecord env σ (env.Join work.Work.OutDir (work.BootId ++ ".yaml"))) work) =
          .ok bytes ∧
      (((σ.read (env.Join work.Work.OutDir (work.BootId ++ ".yaml"))).getD []).length ≤
          bytes.length →
        σ1.read (env.Join work.Work.OutDir (work.BootId ++ ".yaml")) = some bytes) ∧
      (bytes.length <
          ((σ.read (env.Join work.Work.OutDir (work.BootId ++ ".yaml"))).getD []).length →
        σ1.read (env.Join work.Work.OutDir (work.BootId ++ ".yaml")) ≠ some bytes) := by
  obtain ⟨bytes, hm, hr, _, _⟩ := UpdateMetadata_ok env work work1 σ σ1 hok
  refine ⟨bytes, hm, ?_, ?_⟩
  · intro hle
    rw [hr, overwrite_of_le _ _ hle]
  · intro hlt heq
    rw [hr] at heq
    have h1 := overwrite_length_of_lt _ _ hlt
    simp only [Option.some.injEq] at heq
    rw [heq] at h1
    omega

/-- C8 at a failing input: the metadata file of boot session `X` holds the record of
chunk A behind a comment line, which reads back as that record, device `D1`; the
update for chunk B returns nil, and the file then holds the serialisation of the
updated record followed by the last bytes of the old content. -/
theorem UpdateMetadata_leaves_stale_bytes :
    annotatedWorld.read "out/X.yaml" = some annotatedA ∧
      demoEnv.Unmarshal annotatedA = recordA ∧ recordA.DeviceId = (resolved workB).Work.DeviceId ∧
      (UpdateMetadata demoEnv (resolved workB) annotatedWorld).1 = .ok ∧
      appendEvent recordA (resolved workB) = recordAB ∧
      (demoText recordAB).length < annotatedA.length ∧
      (UpdateMetadata demoEnv (resolved workB) annotatedWorld).2.2.read "out/X.yaml" =
        some (demoText recordAB ++ annotatedA.drop (demoText recordAB).length) ∧
      (UpdateMetadata demoEnv (resolved workB) annotatedWorld).2.2.read "out/X.yaml" ≠
        some (demoText recordAB) := by
  refine ⟨by decide, by decide, by decide, by decide, by decide, by decide, by decide, by decide⟩

/-! ## The transfer (C1, C9) -/

theorem writerPhase_valid_writer (env : Env) (compressedReader : GzStream) (path : String)
    (archive : Bytes) (σ : World) (tr : List Event) (h : env.WriterFault path = none) :
    writerPhase env compressedReader path archive σ tr =
      (none, σ.write path (archive ++ env.gzipMember []), tr) := by
  simp [writerPhase, h]

theorem ProcessStagedWork_transfer_failure_returns (env : Env)
    (pre post : List ProcessingFunction) (work : Work) (σ : World) (dw : DeviceWork) (σ1 : World)
    (tr : List Event) (out : File)
    (hpre : runPreProcessing pre 0 (newDeviceWork work) σ [] = (.finished, dw, σ1, tr))
    (hout : dw.OutFile = some out)
    (hfail : (∃ e, gocommons_Open env σ1 work.StagingFileName .rdonly = .error e) ∨
      (∃ staged σ2 e, gocommons_Open env σ1 work.StagingFileName .rdonly = .ok (staged, σ2) ∧
        env.gzipNewReader staged = .error e) ∨
      (∃ staged σ2 r e, gocommons_Open env σ1 work.StagingFileName .rdonly = .ok (staged, σ2) ∧
        env.gzipNewReader staged = .ok r ∧
        gocommons_Open env σ2 out.Path .wrAppend = .error e)) :
    (ProcessStagedWork env pre post work σ).status = .abortedTransfer ∧
      (ProcessStagedWork env pre post work σ).trace = tr ∧
      (ProcessStagedWork env pre post work σ).world.files = σ1.files := by
  simp only [ProcessStagedWork, beforePostProcessing, hpre]
  rcases hfail with ⟨e, h1⟩ | ⟨staged, σ2, e, h1, h2⟩ | ⟨staged, σ2, r, e, h1, h2, h3⟩
  · simp [h1, World.logErr]
  · have hw := gocommons_Open_ok env σ1 σ2 _ _ staged h1
    have hσ : σ2 = σ1 := by
      apply hw.2.2.2.2.2.2
      intro hn
      unfold gocommons_Open at h1
      simp [hn, OpenMode.create] at h1
      split at h1 <;> simp at h1
    subst hσ
    simp [h1, h2, World.logErr]
  · have hw := gocommons_Open_ok env σ1 σ2 _ _ staged h1
    have hσ : σ2 = σ1 := by
      apply hw.2.2.2.2.2.2
      intro hn
      unfold gocommons_Open at h1
      simp [hn, OpenMode.create] at h1
      split at h1 <;> simp at h1
    subst hσ
    simp [h1, h2, hout, h3, World.logErr]

theorem ProcessStagedWork_copy_failure_runs_post (env : Env)
    (pre post : List ProcessingFunction) (work : Work) (σ : World) (dw : DeviceWork)
    (σ1 σ2 σ3 σ4 σ5 : World) (tr : List Event) (out : File) (staged archive : Bytes)
    (r : GzStream) (e1 e2 : String)
    (hpre : runPreProcessing pre 0 (newDeviceWork work) σ [] = (.finished, dw, σ1, tr))
    (hstaged : gocommons_Open env σ1 work.StagingFileName .rdonly = .ok (staged, σ2))
    (hgz : env.gzipNewReader staged = .ok r)
    (hout : dw.OutFile = some out)
    (harch : gocommons_Open env σ2 out.Path .wrAppend = .ok (archive, σ3))
    (hwriter : env.WriterFault out.Path = some e1)
    (hcopy : env.failedCopy r σ3 = (.error e2, σ4))
    (hclose : env.failedFlushClose
      (σ4.logErr ("Failed to copy from staging to out " ++ e2)) = (none, σ5))
    (hret : stepsReturn post dw σ5 = true) :
    ProcessStagedWork env pre post work σ =
      ⟨.done, (applySteps post (dw, σ5)).1, (applySteps post (dw, σ5)).2,
        tr ++ [.copy] ++ (List.range post.length).map Event.post⟩ := by
  simp only [ProcessStagedWork, beforePostProcessing, hpre, hstaged, hgz, hout, harch,
    writerPhase, hwriter, hcopy, hclose,
    runPostProcessing_returns post 0 dw σ5 (tr ++ [.copy]) hret, List.range_eq_range']

/-- C1 at a failing input: the archive of boot session `X` decompresses to chunk A,
chunk B is staged as valid gzip, the pre-processing succeeds, the archive opens for
append and its writer is obtained without error; `ProcessStagedWork` runs to its end
without copying, and the archive still decompresses to chunk A alone. -/
theorem ProcessStagedWork_valid_writer_copies_nothing :
    (archivedA.read "out/X.gz").bind (decompress demoEnv) = some (ascii "boot=X hello\n") ∧
      (archivedA.read "staging/b.gz").bind (decompress demoEnv) =
        some (ascii "boot=X world\n") ∧
      demoEnv.WriterFault "out/X.gz" = none ∧
      (ProcessStagedWork demoEnv (defaultPreProcessing demoEnv) (defaultPostProcessing demoEnv)
        workB archivedA).status = .done ∧
      (ProcessStagedWork demoEnv (defaultPreProcessing demoEnv) (defaultPostProcessing demoEnv)
        workB archivedA).trace = [.pre 0, .post 0] ∧
      (ProcessStagedWork demoEnv (defaultPreProcessing demoEnv) (defaultPostProcessing demoEnv)
        workB archivedA).world.stderr = [] ∧
      ((ProcessStagedWork demoEnv (defaultPreProcessing demoEnv) (defaultPostProcessing demoEnv)
        workB archivedA).world.read "out/X.gz").bind (decompress demoEnv) =
          some (ascii "boot=X hello\n") ∧
      ((ProcessStagedWork demoEnv (defaultPreProcessing demoEnv) (defaultPostProcessing demoEnv)
        workB archivedA).world.read "out/X.gz").bind (decompress demoEnv) ≠
          some (ascii "boot=X hello\n" ++ ascii "boot=X world\n") := by
  refine ⟨by decide, by decide, rfl, by decide, by decide, by decide, by decide, by decide⟩

/-- C9 at a failing input: the pre-processing of chunk A succeeds, the writer of the
archive cannot be obtained and the copy into it fails; `ProcessStagedWork` prints the
failure of the copy and still runs the post-processing step, which writes the
metadata file. -/
theorem ProcessStagedWork_copy_failure_still_post_processes :
    faultyWriterEnv.WriterFault "out/X.gz" = some "writer unavailable" ∧
      (ProcessStagedWork faultyWriterEnv (defaultPreProcessing faultyWriterEnv)
        (defaultPostProcessing faultyWriterEnv) workA stagedWorld).world.stderr =
          ["Failed to copy from staging to out short write"] ∧
      (ProcessStagedWork faultyWriterEnv (defaultPreProcessing faultyWriterEnv)
        (defaultPostProcessing faultyWriterEnv) workA stagedWorld).trace =
          [.pre 0, .copy, .post 0] ∧
      (ProcessStagedWork faultyWriterEnv (defaultPreProcessing faultyWriterEnv)
        (defaultPostProcessing faultyWriterEnv) workA stagedWorld).status = .done ∧
      stagedWorld.read "out/X.yaml" = none ∧
      (ProcessStagedWork faultyWriterEnv (defaultPreProcessing faultyWriterEnv)
        (defaultPostProcessing faultyWriterEnv) workA stagedWorld).world.read "out/X.yaml" =
          some (demoText recordA) := by
  refine ⟨rfl, by decide, by decide, by decide, by decide, by decide⟩

end PhonelabBackend
